import Mathlib

/-!
Verification of `signposting/linkheader.py`: parsing-independent link
classification for FAIR Signposting.

The module under verification has two components: a relation filter
(`_filter_links_by_rel`, `_optional_link`) over a parsed collection of
link records, and an assembler (`find_signposting`, `Signposting.__init__`)
that joins raw header lines, delegates parsing to the external `httplink`
library, optionally absolutizes targets and `href` attribute values against
a base URL (via `urllib.parse.urljoin`), and classifies retained links into
the eight result fields.

External collaborators (`httplink.parse_link_header`, `httplink.Link.rel`,
`httplink.ParsedLinks` lookup, `urllib.parse.urljoin`, `str.lower`,
`str.split`) are not part of the repository; they are modelled here from
their documented contracts: the header parser is a parameter of
`find_signposting`, and the rest are executable models defined below.
-/

namespace Signpost

/-- Model of Python `str.lower()` restricted to the ASCII case mapping
(`Char.toLower` lowers exactly the ASCII uppercase letters). -/
def lowerString (s : String) : String :=
  String.mk (s.data.map Char.toLower)

/-- Auxiliary splitter: Python `str.split()` with no argument splits on runs
of whitespace and drops empty chunks. `acc` holds the current chunk reversed. -/
def splitOnWhitespaceAux : List Char → List Char → List String
  | [], acc => if acc.isEmpty then [] else [String.mk acc.reverse]
  | c :: cs, acc =>
    if c.isWhitespace then
      (if acc.isEmpty then [] else [String.mk acc.reverse]) ++ splitOnWhitespaceAux cs []
    else
      splitOnWhitespaceAux cs (c :: acc)

/-- Model of Python `str.split()` (split on whitespace, no empty chunks). -/
def splitOnWhitespace (s : String) : List String :=
  splitOnWhitespaceAux s.data []

/-- A link record as produced by the external `httplink` parser: a target
URI and an ordered sequence of (key, value) attribute pairs. -/
structure Link where
  target : String
  attributes : List (String × String)
deriving DecidableEq, Repr

/-- Model of `httplink.Link.rel`: the set of lower-cased relation tokens of
the (case-insensitively keyed) `rel` attribute value, split on whitespace.
Represented as a list; only membership is used. -/
def Link.rel (l : Link) : List String :=
  match l.attributes.find? (fun kv => lowerString kv.1 == "rel") with
  | some kv => (splitOnWhitespace kv.2).map lowerString
  | none => []

/-- Model of `httplink.ParsedLinks`: the ordered collection of parsed links. -/
structure ParsedLinks where
  links : List Link
deriving DecidableEq, Repr

/-- Model of the external parser's lookup-by-relation accessor
(`rel in parsedLinks` / `parsedLinks[rel]`): the first link whose `rel` set
contains the (case-folded) relation token, or none. -/
def ParsedLinks.lookup (p : ParsedLinks) (rel : String) : Option Link :=
  p.links.find? (fun l => (Link.rel l).contains (lowerString rel))

/-- The error outcomes of the Python module: `ValueError` raised by the
relation filter and lookup, the `TypeError` raised by the filter's faulty
`%`-formatting of its message (see `filter_links_by_rel`), and the parse
error propagated from the external header parser on malformed input. -/
inductive PyError where
  | valueError (msg : String)
  | typeError (msg : String)
  | malformedHeader (msg : String)
deriving DecidableEq, Repr

/-- The fixed relation vocabulary `SIGNPOSTING`, built exactly as in the
source by splitting the literal on spaces. -/
def SIGNPOSTING : List String :=
  splitOnWhitespace "author collection describedby describes item cite-as type license linkset"

/-- Model of `_filter_links_by_rel(parsedLinks, *rels)`: lower-case the supplied
names and keep the valid ones (or fall back to the whole vocabulary when
none are supplied); when the effective filter set has no intersection with
the vocabulary, raise the error of the source's
`ValueError("No FAIR Signposting relations found: %s" % rels)`: `rels` is
the argument tuple, so Python's `%` substitutes its single element when
exactly one name was supplied, and on every other arity the formatting
itself raises `TypeError("not all arguments converted during string
formatting")` before the `ValueError` is built, naming no input. Otherwise
keep, in order, the links whose `rel` set intersects the filter set. -/
def filter_links_by_rel (parsedLinks : ParsedLinks) (rels : List String) :
    Except PyError (List Link) :=
  let filterRels :=
    if rels.isEmpty then SIGNPOSTING
    else (rels.map lowerString).filter (fun r => SIGNPOSTING.contains r)
  if (filterRels.filter (fun r => SIGNPOSTING.contains r)).isEmpty then
    match rels with
    | [r] => Except.error (PyError.valueError
        ("No FAIR Signposting relations found: " ++ r))
    | _ => Except.error (PyError.typeError
        "not all arguments converted during string formatting")
  else
    Except.ok (parsedLinks.links.filter (fun l => (Link.rel l).any (fun t => filterRels.contains t)))

/-- Model of `_optional_link(parsedLinks, rel)`: raise `ValueError` when the
lower-cased name is outside the vocabulary; otherwise return the parser's
first match for the relation, or none. -/
def optional_link (parsedLinks : ParsedLinks) (rel : String) :
    Except PyError (Option Link) :=
  if (SIGNPOSTING.contains (lowerString rel)) = false then
    Except.error (PyError.valueError ("Unknown FAIR Signposting relation: " ++ rel))
  else if (parsedLinks.lookup rel).isSome then
    Except.ok (parsedLinks.lookup rel)
  else
    Except.ok none

/-- The Signposting result record: five multi-valued fields and three
optional-singleton fields. -/
structure Signposting where
  author : List Link
  describedBy : List Link
  type : List Link
  item : List Link
  linkset : List Link
  citeAs : Option Link
  license : Option Link
  collection : Option Link
deriving DecidableEq, Repr

/-- Model of `Signposting.__init__(parsedLinks)`: classify a parsed collection into
the eight fields. -/
def Signposting.init (parsedLinks : ParsedLinks) : Except PyError Signposting := do
  let author ← filter_links_by_rel parsedLinks ["author"]
  let describedBy ← filter_links_by_rel parsedLinks ["describedby"]
  let type ← filter_links_by_rel parsedLinks ["type"]
  let item ← filter_links_by_rel parsedLinks ["item"]
  let linkset ← filter_links_by_rel parsedLinks ["linkset"]
  let citeAs ← optional_link parsedLinks "cite-as"
  let license ← optional_link parsedLinks "license"
  let collection ← optional_link parsedLinks "collection"
  return Signposting.mk author describedBy type item linkset citeAs license collection

/-- Whether a URI reference is absolute: it starts with an RFC 3986 scheme
(a letter, then letters, digits, `+`, `-` or `.`) followed by `:`. -/
def isAbsoluteURI (u : String) : Bool :=
  let cs := u.data
  let pre := cs.takeWhile (fun c => c != ':' && c != '/' && c != '?' && c != '#')
  match pre, cs.drop pre.length with
  | c :: rest, ':' :: _ =>
    c.isAlpha && rest.all (fun d => d.isAlphanum || d == '+' || d == '-' || d == '.')
  | _, _ => false

/-- The scheme part of a URI: the characters before the first `:`. -/
def uriScheme (base : String) : String :=
  String.mk (base.data.takeWhile (fun c => c != ':'))

/-- The scheme and authority of a URI, e.g. `https://example.org` of
`https://example.org/dataset/`. -/
def schemeAuthority (base : String) : String :=
  let cs := base.data
  let scheme := cs.takeWhile (fun c => c != ':')
  let auth := (cs.drop (scheme.length + 3)).takeWhile (fun c => c != '/')
  String.mk (scheme ++ [':', '/', '/'] ++ auth)

/-- Everything up to and including the last `/` of a URI (the base
directory a relative reference is merged onto). -/
def dropLastSegment (base : String) : String :=
  String.mk ((base.data.reverse.dropWhile (fun c => c != '/')).reverse)

/-- Model of `urllib.parse.urljoin` (external collaborator), per its
documented standard relative-URL resolution: an absolute input is returned
unchanged; an empty reference yields the base; a scheme-relative (`//`),
absolute-path (`/`) or relative-path reference is resolved against the
base's scheme, authority or directory. -/
def urljoin (base url : String) : String :=
  if url.isEmpty then base
  else if isAbsoluteURI url then url
  else if url.data.take 2 == ['/', '/'] then uriScheme base ++ ":" ++ url
  else if url.data.take 1 == ['/'] then schemeAuthority base ++ url
  else dropLastSegment base ++ url

/-- Model of `_absolute_attribute(k, v, baseurl)`: resolve the value against the base
URL when the key case-insensitively equals `href`; otherwise unchanged. -/
def absolute_attribute (k v baseurl : String) : String × String :=
  if lowerString k == "href" then (k, urljoin baseurl v) else (k, v)

/-- The per-link body of the loop in `find_signposting`: with a base URL,
build a new link with the target and every `href` attribute value resolved;
without one, pass the link through unchanged. -/
def absolutize_link (baseurl : Option String) (l : Link) : Link :=
  match baseurl with
  | some b => Link.mk (urljoin b l.target)
      (l.attributes.map (fun kv => absolute_attribute kv.1 kv.2 b))
  | none => l

/-- Model of `find_signposting(headers, baseurl)`: join the header lines with `, `,
delegate to the external parser (a parameter here, since `httplink` is not
part of the repository), retain only vocabulary-relevant links, absolutize
them when a base URL is given, and classify them. -/
def find_signposting (parse : String → Except PyError ParsedLinks)
    (headers : List String) (baseurl : Option String) :
    Except PyError Signposting := do
  let parsed ← parse (String.intercalate ", " headers)
  let retained ← filter_links_by_rel parsed []
  let signposting := retained.map (absolutize_link baseurl)
  Signposting.init (ParsedLinks.mk signposting)

/-- The retained, absolutized link list of `find_signposting` (steps 1-5 of
the assembler), used to state properties of the classification step. -/
def retained_links (parse : String → Except PyError ParsedLinks)
    (headers : List String) (baseurl : Option String) :
    Except PyError (List Link) := do
  let parsed ← parse (String.intercalate ", " headers)
  let retained ← filter_links_by_rel parsed []
  return retained.map (absolutize_link baseurl)

/-- Whether a link record appears under any of the eight result fields. -/
def Signposting.mentions (s : Signposting) (l : Link) : Bool :=
  s.author.contains l || s.describedBy.contains l || s.type.contains l
    || s.item.contains l || s.linkset.contains l
    || s.citeAs == some l || s.license == some l || s.collection == some l

/-! ### Bridging lemmas -/

/-- Boolean membership test agrees with decidable list membership. -/
theorem contains_eq_decide_mem {α : Type} [BEq α] [LawfulBEq α] (l : List α) (a : α) :
    l.contains a = decide (a ∈ l) := by
  rw [Bool.eq_iff_iff]
  simp

/-- Intersecting with a one-element list is a membership test. -/
theorem any_contains_singleton (l : List String) (a : String) :
    (l.any fun t => ([a] : List String).contains t) = decide (a ∈ l) := by
  rw [Bool.eq_iff_iff]
  simp [List.any_eq_true]

/-- Reduction of an `Except` bind on a success value. -/
theorem except_bind_ok {ε α β : Type} (a : α) (f : α → Except ε β) :
    (Except.ok (ε := ε) a >>= f) = f a := rfl

/-- Reduction of an `Except` bind on an error value. -/
theorem except_bind_error {ε α β : Type} (e : ε) (f : α → Except ε β) :
    (Except.error (α := α) e >>= f : Except ε β) = Except.error e := rfl

/-- Filtering by one valid, already lower-case relation never fails and
keeps exactly the links whose `rel` set contains that relation. -/
theorem filter_links_by_rel_single (p : ParsedLinks) (r : String)
    (h1 : r ∈ SIGNPOSTING) (h2 : lowerString r = r) :
    filter_links_by_rel p [r] =
      Except.ok (p.links.filter (fun l => decide (r ∈ Link.rel l))) := by
  have hc : SIGNPOSTING.contains r = true := by
    rw [contains_eq_decide_mem]
    exact decide_eq_true h1
  unfold filter_links_by_rel
  simp only [h2]
  simp [hc, h1, h2]
  have e3 : (fun l : Link => (Link.rel l).any fun t => decide (t = r))
      = fun l : Link => decide (r ∈ Link.rel l) := by
    funext l
    rw [Bool.eq_iff_iff]
    simp [List.any_eq_true]
  rw [e3]

/-- The parser's lookup accessor is a first-match search for the
lower-cased relation token. -/
theorem lookup_eq_find_lower (p : ParsedLinks) (r : String) :
    p.lookup r = p.links.find? (fun l => decide (lowerString r ∈ Link.rel l)) := by
  unfold ParsedLinks.lookup
  rw [funext fun l => contains_eq_decide_mem (Link.rel l) (lowerString r)]

/-- On a vocabulary relation, `_optional_link` returns the parser's lookup. -/
theorem optional_link_valid (p : ParsedLinks) (r : String)
    (h1 : SIGNPOSTING.contains (lowerString r) = true) :
    optional_link p r = Except.ok (p.lookup r) := by
  have hm : lowerString r ∈ SIGNPOSTING := by
    have h2 := contains_eq_decide_mem SIGNPOSTING (lowerString r)
    rw [h2] at h1
    exact of_decide_eq_true h1
  unfold optional_link
  cases hl : p.lookup r <;> simp [hm, hl]

/-- Characterization of the classification step: `Signposting.__init__`
always succeeds, each multi-valued field is the ordered sublist of links
whose `rel` set contains its relation, and each singleton field is the
first such link (or none). -/
theorem Signposting.init_eq (p : ParsedLinks) :
    Signposting.init p = Except.ok (Signposting.mk
      (p.links.filter (fun l => decide ("author" ∈ Link.rel l)))
      (p.links.filter (fun l => decide ("describedby" ∈ Link.rel l)))
      (p.links.filter (fun l => decide ("type" ∈ Link.rel l)))
      (p.links.filter (fun l => decide ("item" ∈ Link.rel l)))
      (p.links.filter (fun l => decide ("linkset" ∈ Link.rel l)))
      (p.links.find? (fun l => decide ("cite-as" ∈ Link.rel l)))
      (p.links.find? (fun l => decide ("license" ∈ Link.rel l)))
      (p.links.find? (fun l => decide ("collection" ∈ Link.rel l)))) := by
  have f1 := filter_links_by_rel_single p "author" (by decide) (by decide)
  have f2 := filter_links_by_rel_single p "describedby" (by decide) (by decide)
  have f3 := filter_links_by_rel_single p "type" (by decide) (by decide)
  have f4 := filter_links_by_rel_single p "item" (by decide) (by decide)
  have f5 := filter_links_by_rel_single p "linkset" (by decide) (by decide)
  have g1 : optional_link p "cite-as" =
      Except.ok (p.links.find? (fun l => decide ("cite-as" ∈ Link.rel l))) := by
    rw [optional_link_valid p "cite-as" (by decide), lookup_eq_find_lower]
    rfl
  have g2 : optional_link p "license" =
      Except.ok (p.links.find? (fun l => decide ("license" ∈ Link.rel l))) := by
    rw [optional_link_valid p "license" (by decide), lookup_eq_find_lower]
    rfl
  have g3 : optional_link p "collection" =
      Except.ok (p.links.find? (fun l => decide ("collection" ∈ Link.rel l))) := by
    rw [optional_link_valid p "collection" (by decide), lookup_eq_find_lower]
    rfl
  simp only [Signposting.init, f1, f2, f3, f4, f5, g1, g2, g3]
  rfl

/-! ### Properties of URL absolutization -/

/-- Per the external contract of `urljoin`, an absolute URI is returned
unchanged. -/
theorem urljoin_absolute (b u : String) (h : isAbsoluteURI u = true) :
    urljoin b u = u := by
  have he : u.isEmpty = false := by
    cases he2 : u.isEmpty
    · rfl
    · rw [String.isEmpty_iff] at he2
      subst he2
      exact absurd h (by decide)
  unfold urljoin
  simp [he, h]

/-- Absolutizing the attribute pairs of a link whose `href` values are all
absolute changes nothing. -/
theorem map_absolute_attribute_fixed (b : String) (attrs : List (String × String))
    (h2 : ∀ kv ∈ attrs, lowerString kv.1 = "href" → isAbsoluteURI kv.2 = true) :
    attrs.map (fun kv => absolute_attribute kv.1 kv.2 b) = attrs := by
  induction attrs with
  | nil => rfl
  | cons kv rest ih =>
    have hkv : absolute_attribute kv.1 kv.2 b = kv := by
      unfold absolute_attribute
      by_cases hk : lowerString kv.1 = "href"
      · simp [hk, urljoin_absolute b kv.2 (h2 kv (by simp) hk)]
      · simp [hk]
    simp [hkv]
    exact ih (fun kv hm hh => h2 kv (List.mem_cons_of_mem _ hm) hh)

/-- A link with absolute target and absolute `href` attribute values is a
fixed point of the absolutization step. -/
theorem absolutize_fixed (b : String) (l : Link)
    (h1 : isAbsoluteURI l.target = true)
    (h2 : ∀ kv ∈ l.attributes, lowerString kv.1 = "href" → isAbsoluteURI kv.2 = true) :
    absolutize_link (some b) l = l := by
  show Link.mk (urljoin b l.target)
      (l.attributes.map (fun kv => absolute_attribute kv.1 kv.2 b)) = l
  rw [urljoin_absolute b l.target h1, map_absolute_attribute_fixed b l.attributes h2]

/-- Any successful `find_signposting` result is the classification of some
retained link list. -/
theorem find_signposting_ok_shape (parse : String → Except PyError ParsedLinks)
    (headers : List String) (baseurl : Option String) (s : Signposting)
    (hs : find_signposting parse headers baseurl = Except.ok s) :
    ∃ R : List Link, s = Signposting.mk
      (R.filter (fun l => decide ("author" ∈ Link.rel l)))
      (R.filter (fun l => decide ("describedby" ∈ Link.rel l)))
      (R.filter (fun l => decide ("type" ∈ Link.rel l)))
      (R.filter (fun l => decide ("item" ∈ Link.rel l)))
      (R.filter (fun l => decide ("linkset" ∈ Link.rel l)))
      (R.find? (fun l => decide ("cite-as" ∈ Link.rel l)))
      (R.find? (fun l => decide ("license" ∈ Link.rel l)))
      (R.find? (fun l => decide ("collection" ∈ Link.rel l))) := by
  unfold find_signposting at hs
  cases hp : parse (String.intercalate ", " headers) with
  | error e =>
    rw [hp, except_bind_error] at hs
    exact absurd hs (by simp)
  | ok parsed =>
    rw [hp, except_bind_ok] at hs
    cases hf : filter_links_by_rel parsed [] with
    | error e =>
      rw [hf, except_bind_error] at hs
      exact absurd hs (by simp)
    | ok retained =>
      rw [hf, except_bind_ok] at hs
      refine ⟨retained.map (absolutize_link baseurl), ?_⟩
      have hs2 : Signposting.init
          (ParsedLinks.mk (retained.map (absolutize_link baseurl))) = Except.ok s := hs
      rw [Signposting.init_eq] at hs2
      simpa using (Except.ok.inj hs2).symm

/-! ### The claims -/

/-- C1: whenever `find_signposting` retains the (absolutized) link list `R`,
its result has, for each multi-valued relation (author, describedby, type,
item, linkset), the ordered sublist of `R` whose `rel` set contains that
relation, and for each singleton relation (cite-as, license, collection)
the first link of `R` whose `rel` set contains it, or none. -/
theorem c1_result_fields_from_retained (parse : String → Except PyError ParsedLinks)
    (headers : List String) (baseurl : Option String) (R : List Link)
    (h : retained_links parse headers baseurl = Except.ok R) :
    find_signposting parse headers baseurl = Except.ok (Signposting.mk
      (R.filter (fun l => decide ("author" ∈ Link.rel l)))
      (R.filter (fun l => decide ("describedby" ∈ Link.rel l)))
      (R.filter (fun l => decide ("type" ∈ Link.rel l)))
      (R.filter (fun l => decide ("item" ∈ Link.rel l)))
      (R.filter (fun l => decide ("linkset" ∈ Link.rel l)))
      (R.find? (fun l => decide ("cite-as" ∈ Link.rel l)))
      (R.find? (fun l => decide ("license" ∈ Link.rel l)))
      (R.find? (fun l => decide ("collection" ∈ Link.rel l)))) := by
  unfold retained_links at h
  unfold find_signposting
  cases hp : parse (String.intercalate ", " headers) with
  | error e =>
    rw [hp, except_bind_error] at h
    exact absurd h (by simp)
  | ok parsed =>
    rw [hp, except_bind_ok] at h
    rw [except_bind_ok]
    cases hf : filter_links_by_rel parsed [] with
    | error e =>
      rw [hf, except_bind_error] at h
      exact absurd h (by simp)
    | ok retained =>
      rw [hf, except_bind_ok] at h
      rw [except_bind_ok]
      have hR : retained.map (absolutize_link baseurl) = R := Except.ok.inj h
      show Signposting.init (ParsedLinks.mk (retained.map (absolutize_link baseurl))) = _
      rw [hR]
      exact Signposting.init_eq (ParsedLinks.mk R)

/-- Witness for C1 at Scenario D: two author links are classified, in
header order, into the author field. -/
theorem c1_result_fields_from_retained_witness :
    find_signposting
      (fun _ => Except.ok (ParsedLinks.mk
        [Link.mk "https://example.org/a" [("rel", "author")],
         Link.mk "https://example.org/b" [("rel", "author")]]))
      ["<https://example.org/a>; rel=\"author\", <https://example.org/b>; rel=\"author\""]
      none
      = Except.ok (Signposting.mk
          [Link.mk "https://example.org/a" [("rel", "author")],
           Link.mk "https://example.org/b" [("rel", "author")]]
          [] [] [] [] none none none) := by
  have h := c1_result_fields_from_retained
    (fun _ => Except.ok (ParsedLinks.mk
      [Link.mk "https://example.org/a" [("rel", "author")],
       Link.mk "https://example.org/b" [("rel", "author")]]))
    ["<https://example.org/a>; rel=\"author\", <https://example.org/b>; rel=\"author\""]
    none
    [Link.mk "https://example.org/a" [("rel", "author")],
     Link.mk "https://example.org/b" [("rel", "author")]]
    rfl
  rw [h]
  rfl

/-- C2: a link whose `rel` set has no vocabulary relation other than
possibly `describes` appears in no field of a successful
`find_signposting` result; in particular links with no vocabulary relation
at all, and links whose only vocabulary relation is `describes`, are
surfaced nowhere. -/
theorem c2_non_vocabulary_links_unmentioned (parse : String → Except PyError ParsedLinks)
    (headers : List String) (baseurl : Option String) (s : Signposting)
    (hs : find_signposting parse headers baseurl = Except.ok s)
    (l : Link) (hl : ∀ r ∈ Link.rel l, r ∈ SIGNPOSTING → r = "describes") :
    Signposting.mentions s l = false := by
  obtain ⟨R, rfl⟩ := find_signposting_ok_shape parse headers baseurl s hs
  rw [Bool.eq_false_iff]
  intro hm
  simp only [Signposting.mentions, Bool.or_eq_true, contains_eq_decide_mem,
    decide_eq_true_eq, beq_iff_eq] at hm
  have hgen : ∀ r : String, r ∈ SIGNPOSTING → r ≠ "describes" → r ∉ Link.rel l := by
    intro r hr hne hd
    exact hne (hl r hd hr)
  rcases hm with ((((((hx | hx) | hx) | hx) | hx) | hx) | hx) | hx
  · exact hgen "author" (by decide) (by decide)
      (of_decide_eq_true (List.mem_filter.mp hx).2)
  · exact hgen "describedby" (by decide) (by decide)
      (of_decide_eq_true (List.mem_filter.mp hx).2)
  · exact hgen "type" (by decide) (by decide)
      (of_decide_eq_true (List.mem_filter.mp hx).2)
  · exact hgen "item" (by decide) (by decide)
      (of_decide_eq_true (List.mem_filter.mp hx).2)
  · exact hgen "linkset" (by decide) (by decide)
      (of_decide_eq_true (List.mem_filter.mp hx).2)
  · have hd := List.find?_some hx
    exact hgen "cite-as" (by decide) (by decide) (of_decide_eq_true hd)
  · have hd := List.find?_some hx
    exact hgen "license" (by decide) (by decide) (of_decide_eq_true hd)
  · have hd := List.find?_some hx
    exact hgen "collection" (by decide) (by decide) (of_decide_eq_true hd)

/-- Witness for C2 at Scenario C plus a `describes` link: the retained
`describes` link (and the dropped `stylesheet` link) appear in no field. -/
theorem c2_non_vocabulary_links_unmentioned_witness :
    find_signposting
      (fun _ => Except.ok (ParsedLinks.mk
        [Link.mk "https://doi.org/10.5555/12345678" [("rel", "cite-as")],
         Link.mk "https://example.org/page" [("rel", "stylesheet")],
         Link.mk "https://example.org/d" [("rel", "describes")]]))
      ["<https://doi.org/10.5555/12345678>; rel=\"cite-as\", <https://example.org/page>; rel=\"stylesheet\""]
      none
      = Except.ok (Signposting.mk [] [] [] [] []
          (some (Link.mk "https://doi.org/10.5555/12345678" [("rel", "cite-as")]))
          none none)
    ∧ Signposting.mentions
        (Signposting.mk [] [] [] [] []
          (some (Link.mk "https://doi.org/10.5555/12345678" [("rel", "cite-as")]))
          none none)
        (Link.mk "https://example.org/d" [("rel", "describes")]) = false :=
  ⟨rfl,
    c2_non_vocabulary_links_unmentioned
      (fun _ => Except.ok (ParsedLinks.mk
        [Link.mk "https://doi.org/10.5555/12345678" [("rel", "cite-as")],
         Link.mk "https://example.org/page" [("rel", "stylesheet")],
         Link.mk "https://example.org/d" [("rel", "describes")]]))
      ["<https://doi.org/10.5555/12345678>; rel=\"cite-as\", <https://example.org/page>; rel=\"stylesheet\""]
      none
      (Signposting.mk [] [] [] [] []
        (some (Link.mk "https://doi.org/10.5555/12345678" [("rel", "cite-as")]))
        none none)
      rfl
      (Link.mk "https://example.org/d" [("rel", "describes")])
      (by decide)⟩

/-- C3: with a base URL, the absolutization step builds a new link whose
target is the URL-join of the base with the original target and whose
attribute list maps each pair with key case-insensitively `href` to the
joined value, leaving every other pair, all keys and the order unchanged;
without a base URL the link passes through as the identity. -/
theorem c3_absolutize_shape (b : String) (l : Link) :
    (absolutize_link (some b) l).target = urljoin b l.target
    ∧ (absolutize_link (some b) l).attributes
        = l.attributes.map (fun kv =>
            if lowerString kv.1 = "href" then (kv.1, urljoin b kv.2) else kv)
    ∧ (absolutize_link (some b) l).attributes.map Prod.fst = l.attributes.map Prod.fst
    ∧ absolutize_link none l = l := by
  refine ⟨rfl, ?_, ?_, rfl⟩
  · show l.attributes.map (fun kv => absolute_attribute kv.1 kv.2 b) = _
    refine congrFun (congrArg List.map ?_) l.attributes
    funext kv
    by_cases h : lowerString kv.1 = "href" <;> simp [absolute_attribute, h]
  · show (l.attributes.map (fun kv => absolute_attribute kv.1 kv.2 b)).map Prod.fst = _
    rw [List.map_map]
    refine congrFun (congrArg List.map ?_) l.attributes
    funext kv
    by_cases h : lowerString kv.1 = "href" <;> simp [absolute_attribute, h]

/-- C4: evaluation of the relation filter at the failing input. With two
supplied names, both outside the vocabulary, the source's
`"%s" % rels` formats the message against the two-element argument tuple
and raises `TypeError("not all arguments converted during string
formatting")`, identifying no offending input, instead of the
`InvalidRelation` (`ValueError`) naming the input that the claim and the
spec require; with a single invalid name the `ValueError` does identify
it. -/
theorem c4_two_invalid_names_give_type_error :
    filter_links_by_rel (ParsedLinks.mk []) ["doi", "foo"]
      = Except.error (PyError.typeError
          "not all arguments converted during string formatting")
    ∧ filter_links_by_rel (ParsedLinks.mk []) ["doi"]
      = Except.error (PyError.valueError
          "No FAIR Signposting relations found: doi") :=
  ⟨rfl, rfl⟩

/-- C5: when at least one supplied name lower-cases into the vocabulary,
`_filter_links_by_rel` returns, in input order and without deduplication,
exactly the links whose `rel` set meets the set of lower-cased valid
supplied names; invalid supplied names are silently dropped. -/
theorem c5_filter_valid_names (p : ParsedLinks) (rels : List String)
    (h : ∃ r ∈ rels, lowerString r ∈ SIGNPOSTING) :
    filter_links_by_rel p rels = Except.ok (p.links.filter (fun l =>
      decide (∃ r ∈ rels, lowerString r ∈ SIGNPOSTING ∧ lowerString r ∈ Link.rel l))) := by
  obtain ⟨r0, hr0, hr0S⟩ := h
  have hne : rels.isEmpty = false := by
    cases rels
    · cases hr0
    · rfl
  have hmem : lowerString r0 ∈
      (rels.map lowerString).filter (fun r => SIGNPOSTING.contains r) :=
    List.mem_filter.mpr ⟨List.mem_map_of_mem _ hr0,
      by rw [contains_eq_decide_mem]; exact decide_eq_true hr0S⟩
  have hmem2 : lowerString r0 ∈
      ((rels.map lowerString).filter (fun r => SIGNPOSTING.contains r)).filter
        (fun r => SIGNPOSTING.contains r) :=
    List.mem_filter.mpr ⟨hmem,
      by rw [contains_eq_decide_mem]; exact decide_eq_true hr0S⟩
  have hguard : (((rels.map lowerString).filter (fun r => SIGNPOSTING.contains r)).filter
      (fun r => SIGNPOSTING.contains r)).isEmpty = false := by
    rw [List.isEmpty_eq_false]
    exact List.ne_nil_of_mem hmem2
  have hpred : (fun l : Link => (Link.rel l).any fun t =>
      ((rels.map lowerString).filter (fun r => SIGNPOSTING.contains r)).contains t)
      = fun l : Link =>
        decide (∃ r ∈ rels, lowerString r ∈ SIGNPOSTING ∧ lowerString r ∈ Link.rel l) := by
    funext l
    rw [Bool.eq_iff_iff]
    simp only [List.any_eq_true, contains_eq_decide_mem, decide_eq_true_eq,
      List.mem_filter, List.mem_map]
    constructor
    · rintro ⟨t, htl, ⟨r, hr, hrt⟩, htS⟩
      subst hrt
      exact ⟨r, hr, htS, htl⟩
    · rintro ⟨r, hr, hrS, hrl⟩
      exact ⟨lowerString r, hrl, ⟨r, hr, rfl⟩, hrS⟩
  unfold filter_links_by_rel
  simp only [hne, Bool.false_eq_true, if_false, hguard, hpred]

/-- Witness for C5: the mixed-case valid name is lower-cased and applied,
the invalid name is silently dropped, and only the matching link is kept. -/
theorem c5_filter_valid_names_witness :
    filter_links_by_rel
      (ParsedLinks.mk [Link.mk "https://example.org/a" [("rel", "author")],
        Link.mk "https://example.org/p" [("rel", "stylesheet")]])
      ["Author", "doi"]
      = Except.ok [Link.mk "https://example.org/a" [("rel", "author")]] := by
  have h := c5_filter_valid_names
    (ParsedLinks.mk [Link.mk "https://example.org/a" [("rel", "author")],
      Link.mk "https://example.org/p" [("rel", "stylesheet")]])
    ["Author", "doi"]
    (by decide)
  rw [h]
  rfl

/-- C6: calling the filter with no relation names equals calling it with
all nine vocabulary names, and it never fails. -/
theorem c6_no_names_means_all_names (p : ParsedLinks) :
    filter_links_by_rel p [] = filter_links_by_rel p SIGNPOSTING
    ∧ ∃ ls, filter_links_by_rel p [] = Except.ok ls := by
  have hv : ((SIGNPOSTING.map lowerString).filter fun r => SIGNPOSTING.contains r)
      = SIGNPOSTING := by decide
  constructor
  · unfold filter_links_by_rel
    simp only [hv]
    rfl
  · exact ⟨_, rfl⟩

/-- C7: `_optional_link` fails with the `ValueError` naming the input when
the name does not case-insensitively belong to the vocabulary, and
otherwise returns the first link whose `rel` set contains the lower-cased
relation, or none. -/
theorem c7_optional_link_spec (p : ParsedLinks) (rel : String) :
    (lowerString rel ∈ SIGNPOSTING →
      optional_link p rel =
        Except.ok (p.links.find? (fun l => decide (lowerString rel ∈ Link.rel l))))
    ∧ (lowerString rel ∉ SIGNPOSTING →
      optional_link p rel = Except.error (PyError.valueError
        ("Unknown FAIR Signposting relation: " ++ rel))) := by
  constructor
  · intro h
    rw [optional_link_valid p rel
        (by rw [contains_eq_decide_mem]; exact decide_eq_true h),
      lookup_eq_find_lower]
  · intro h
    have hc : SIGNPOSTING.contains (lowerString rel) = false := by
      rw [contains_eq_decide_mem]
      exact decide_eq_false h
    unfold optional_link
    rw [hc]
    simp

/-- C8: a parse error of the external header parser on the `, `-joined
header lines is propagated unchanged by `find_signposting`, with no
partial result. -/
theorem c8_malformed_header_propagates (parse : String → Except PyError ParsedLinks)
    (headers : List String) (baseurl : Option String) (e : PyError)
    (h : parse (String.intercalate ", " headers) = Except.error e) :
    find_signposting parse headers baseurl = Except.error e := by
  unfold find_signposting
  rw [h, except_bind_error]

/-- Witness for C8 at Scenario E: a malformed header aborts the call with
the parser's error. -/
theorem c8_malformed_header_propagates_witness :
    find_signposting
      (fun _ => Except.error (PyError.malformedHeader "unclosed angle bracket"))
      ["<https://example.org/item1; rel=\"item\""] none
      = Except.error (PyError.malformedHeader "unclosed angle bracket") :=
  c8_malformed_header_propagates
    (fun _ => Except.error (PyError.malformedHeader "unclosed angle bracket"))
    ["<https://example.org/item1; rel=\"item\""] none
    (PyError.malformedHeader "unclosed angle bracket") rfl

/-- C9: on a link collection whose targets and `href` attribute values are
already absolute URIs, the base-URL resolution step is the identity, so
applying it again yields byte-identical targets and attribute values. -/
theorem c9_absolutize_idempotent (b : String) (ls : List Link)
    (h : ∀ l ∈ ls, isAbsoluteURI (Link.target l) = true ∧
      ∀ kv ∈ l.attributes, lowerString kv.1 = "href" → isAbsoluteURI kv.2 = true) :
    ls.map (absolutize_link (some b)) = ls := by
  induction ls with
  | nil => rfl
  | cons l rest ih =>
    obtain ⟨h1, h2⟩ := h l (by simp)
    simp only [List.map_cons, absolutize_fixed b l h1 h2]
    rw [ih (fun x hx => h x (List.mem_cons_of_mem _ hx))]

/-- Witness for C9: an already-absolute link collection is unchanged by a
second absolutization against the same base. -/
theorem c9_absolutize_idempotent_witness :
    [Link.mk "https://example.org/data.csv"
      [("rel", "item"), ("href", "https://example.org/h")]].map
        (absolutize_link (some "https://example.org/dataset/"))
      = [Link.mk "https://example.org/data.csv"
          [("rel", "item"), ("href", "https://example.org/h")]] :=
  c9_absolutize_idempotent "https://example.org/dataset/"
    [Link.mk "https://example.org/data.csv"
      [("rel", "item"), ("href", "https://example.org/h")]]
    (by decide)

/-- C10: classification is not a partition: a retained link whose `rel`
set contains several of the five multi-valued relations is listed under
every corresponding field. -/
theorem c10_shared_link_under_every_field (p : ParsedLinks) (s : Signposting)
    (hs : Signposting.init p = Except.ok s) (l : Link) (hl : l ∈ p.links) :
    ("author" ∈ Link.rel l → l ∈ s.author)
    ∧ ("describedby" ∈ Link.rel l → l ∈ s.describedBy)
    ∧ ("type" ∈ Link.rel l → l ∈ s.type)
    ∧ ("item" ∈ Link.rel l → l ∈ s.item)
    ∧ ("linkset" ∈ Link.rel l → l ∈ s.linkset) := by
  rw [Signposting.init_eq] at hs
  have hse := Except.ok.inj hs
  subst hse
  refine ⟨fun h => ?_, fun h => ?_, fun h => ?_, fun h => ?_, fun h => ?_⟩
  all_goals exact List.mem_filter.mpr ⟨hl, decide_eq_true h⟩

/-- Witness for C10: a link with `rel="author item"` appears under both the
author and the item fields. -/
theorem c10_shared_link_under_every_field_witness :
    ("author" ∈ Link.rel (Link.mk "https://example.org/x" [("rel", "author item")]) →
      Link.mk "https://example.org/x" [("rel", "author item")] ∈
        (Signposting.mk [Link.mk "https://example.org/x" [("rel", "author item")]]
          [] [] [Link.mk "https://example.org/x" [("rel", "author item")]] []
          none none none).author)
    ∧ ("describedby" ∈ Link.rel (Link.mk "https://example.org/x" [("rel", "author item")]) →
      Link.mk "https://example.org/x" [("rel", "author item")] ∈
        (Signposting.mk [Link.mk "https://example.org/x" [("rel", "author item")]]
          [] [] [Link.mk "https://example.org/x" [("rel", "author item")]] []
          none none none).describedBy)
    ∧ ("type" ∈ Link.rel (Link.mk "https://example.org/x" [("rel", "author item")]) →
      Link.mk "https://example.org/x" [("rel", "author item")] ∈
        (Signposting.mk [Link.mk "https://example.org/x" [("rel", "author item")]]
          [] [] [Link.mk "https://example.org/x" [("rel", "author item")]] []
          none none none).type)
    ∧ ("item" ∈ Link.rel (Link.mk "https://example.org/x" [("rel", "author item")]) →
      Link.mk "https://example.org/x" [("rel", "author item")] ∈
        (Signposting.mk [Link.mk "https://example.org/x" [("rel", "author item")]]
          [] [] [Link.mk "https://example.org/x" [("rel", "author item")]] []
          none none none).item)
    ∧ ("linkset" ∈ Link.rel (Link.mk "https://example.org/x" [("rel", "author item")]) →
      Link.mk "https://example.org/x" [("rel", "author item")] ∈
        (Signposting.mk [Link.mk "https://example.org/x" [("rel", "author item")]]
          [] [] [Link.mk "https://example.org/x" [("rel", "author item")]] []
          none none none).linkset) :=
  c10_shared_link_under_every_field
    (ParsedLinks.mk [Link.mk "https://example.org/x" [("rel", "author item")]])
    (Signposting.mk [Link.mk "https://example.org/x" [("rel", "author item")]]
      [] [] [Link.mk "https://example.org/x" [("rel", "author item")]] []
      none none none)
    rfl
    (Link.mk "https://example.org/x" [("rel", "author item")])
    (by decide)

end Signpost
